import Mathlib

/-!
Verification of the recursive-thinking engine (src/lib.ts).

Modelling conventions:
* JavaScript strings are Lean `String` values (sequences of characters);
  `s.slice(0, n)` is `jsSlice s n`, `s.includes(pat)` is `jsIncludes s pat`,
  `s.toLowerCase()` is `jsToLower s` (the source only relies on ASCII case
  folding, which `Char.toLower` provides).
* JavaScript numbers are modelled as `Option ℚ`: `some q` is an ordinary
  number and `none` is `NaN` (the only non-finite value the engine can
  produce, via `parseFloat` on a digitless capture).  Every comparison
  `x >= t` in the source becomes `jge x t`, which is `false` on `NaN`,
  exactly as in JavaScript.
* The exact decimal rendering of a number inside a template literal does not
  affect any property below, so `jsNumToString` renders the rational
  directly.
-/

/-- Character-list version of JavaScript `startsWith`: does `l` begin with
`pat`? -/
def startsWithList : List Char → List Char → Bool
  | _, [] => true
  | [], _ :: _ => false
  | c :: cs, p :: ps => c = p && startsWithList cs ps

/-- Character-list version of JavaScript `String.prototype.includes`. -/
def containsSub : List Char → List Char → Bool
  | [], pat => pat.isEmpty
  | c :: cs, pat => startsWithList (c :: cs) pat || containsSub cs pat

/-- JavaScript `s.includes(pat)`. -/
def jsIncludes (s pat : String) : Bool :=
  containsSub s.toList pat.toList

/-- JavaScript `s.toLowerCase()` (ASCII case folding). -/
def jsToLower (s : String) : String :=
  String.mk (s.toList.map Char.toLower)

/-- JavaScript `s.slice(0, n)` for a nonnegative bound. -/
def jsSlice (s : String) (n : Nat) : String :=
  String.mk (s.toList.take n)

/-- Value of a list of decimal digit characters. -/
def digitsToNat (l : List Char) : Nat :=
  l.foldl (fun a c => 10 * a + (c.toNat - 48)) 0

/-- JavaScript `parseFloat` restricted to strings drawn from `[0-9.]+`, the
only inputs the engine feeds it: it consumes digits, then optionally a dot
and more digits, and returns the decimal value `intPart.fracPart` (written
as the exact rational `(intPart * 10 ^ k + fracPart) / 10 ^ k`); it returns
`none` (NaN) when no digit is consumed, as for the input `"."`. -/
def parseFloatQ (l : List Char) : Option ℚ :=
  let intPart := l.takeWhile Char.isDigit
  let rest := l.dropWhile Char.isDigit
  match rest with
  | '.' :: rest2 =>
      let fracPart := rest2.takeWhile Char.isDigit
      if intPart.isEmpty && fracPart.isEmpty then none
      else some (mkRat
        (digitsToNat intPart * 10 ^ fracPart.length + digitsToNat fracPart)
        (10 ^ fracPart.length))
  | _ => if intPart.isEmpty then none else some (mkRat (digitsToNat intPart) 1)

/-- Separator class `[:\s]` of the confidence regex (colon and the common
whitespace characters matched by `\s`). -/
def isSepChar (c : Char) : Bool :=
  c = ':' || c = ' ' || c = '\t' || c = '\n' || c = '\r' ||
    c = Char.ofNat 11 || c = Char.ofNat 12 || c = Char.ofNat 160

/-- Character class `[0-9.]` of the confidence regex. -/
def isNumDotChar (c : Char) : Bool :=
  c.isDigit || c = '.'

/-- The token `confidence` as a character list. -/
def confidenceTok : List Char :=
  "confidence".toList

/-- First match of the regex `confidence[:\s]*([0-9.]+)` on an already
lowercased character list, returning the captured group: scan left to right
for an occurrence of the token followed by optional separators and a
nonempty run of `[0-9.]` characters. -/
def findConfidenceNum : List Char → Option (List Char)
  | [] => none
  | c :: cs =>
      if startsWithList (c :: cs) confidenceTok then
        let num := (((c :: cs).drop confidenceTok.length).dropWhile
          isSepChar).takeWhile isNumDotChar
        if num.isEmpty then findConfidenceNum cs else some num
      else findConfidenceNum cs

/-- Confidence extraction of `processIteration`:
`agentResponse.match(/confidence[:\s]*([0-9.]+)/i)` followed by
`parseFloat` on the capture, defaulting to `0.5` when there is no match.
The `/i` flag is modelled by scanning the lowercased response (the capture
consists of digits and dots, which lowercasing fixes). -/
def parsedConfidence (agentResponse : String) : Option ℚ :=
  match findConfidenceNum (agentResponse.toList.map Char.toLower) with
  | none => some (mkRat 1 2)
  | some num => parseFloatQ num

/-- JavaScript `x >= t` where `x` may be `NaN` (`none`), in which case the
comparison is `false`. -/
def jge (x : Option ℚ) (t : ℚ) : Bool :=
  match x with
  | none => false
  | some q => t ≤ q

/-- Rendering of a JavaScript number inside a template literal.  No property
below depends on the exact digits, so the rational is rendered directly and
`NaN` as the string `NaN`. -/
def jsNumToString (x : Option ℚ) : String :=
  match x with
  | none => "NaN"
  | some q => toString q.num ++ "/" ++ toString q.den

/-- `ThinkingState` from the source. -/
structure ThinkingState where
  depth : Nat
  confidence : Option ℚ
  iterations : List String
  lastResult : String
  isComplete : Bool

/-- `ThinkingConfig` from the source (`maxDepth` and `maxIterations` are the
integer fields, `minConfidence` and `temperature` the real ones). -/
structure ThinkingConfig where
  maxDepth : Nat
  minConfidence : ℚ
  maxIterations : Nat
  temperature : ℚ

/-- `Partial<ThinkingConfig>`: each field optionally supplied. -/
structure PartialThinkingConfig where
  maxDepth : Option Nat := none
  minConfidence : Option ℚ := none
  maxIterations : Option Nat := none
  temperature : Option ℚ := none

/-- `DEFAULT_CONFIG` from the source. -/
def DEFAULT_CONFIG : ThinkingConfig :=
  { maxDepth := 5
    minConfidence := mkRat 85 100
    maxIterations := 8
    temperature := mkRat 7 10 }

/-- `{ ...DEFAULT_CONFIG, ...config }`: supplied fields override the
defaults. -/
def mergeConfig (config : PartialThinkingConfig) : ThinkingConfig :=
  { maxDepth := config.maxDepth.getD DEFAULT_CONFIG.maxDepth
    minConfidence := config.minConfidence.getD DEFAULT_CONFIG.minConfidence
    maxIterations := config.maxIterations.getD DEFAULT_CONFIG.maxIterations
    temperature := config.temperature.getD DEFAULT_CONFIG.temperature }

/-- Keyword list of `compressInsights`. -/
def compressKeywords : List String :=
  ["therefore", "conclusion", "solution", "approach", "error", "issue",
    "fixed", "implement"]

/-- Character-list version of JavaScript `text.split("\\n")` (structural
recursion, so that it evaluates inside the kernel). -/
def jsSplitNewlineList : List Char → List (List Char)
  | [] => [[]]
  | c :: cs =>
      match jsSplitNewlineList cs with
      | [] => [[c]]
      | h :: t => if c = '\n' then [] :: h :: t else (c :: h) :: t

/-- JavaScript `text.split("\\n")`. -/
def jsSplitNewline (s : String) : List String :=
  (jsSplitNewlineList s.toList).map String.mk

/-- Falsity of the JavaScript truthiness test `l.trim()`: the line is empty
or entirely whitespace. -/
def jsIsBlank (l : String) : Bool :=
  l.toList.all Char.isWhitespace

/-- The line filter of `compressInsights`: does the lowercased line contain
one of the keywords? -/
def lineHasKeyword (line : String) : Bool :=
  compressKeywords.any (fun kw => jsIncludes (jsToLower line) kw)

/-- `compressInsights` from the source: split on newlines, drop
whitespace-only lines (`filter((l) => l.trim())`), keep lines containing a
keyword (lowercased), join with newlines, `slice(0, 500)`. -/
def compressInsights (text : String) : String :=
  let lines := (jsSplitNewline text).filter (fun l => !(jsIsBlank l))
  jsSlice
    (String.intercalate "\n" (lines.filter lineHasKeyword))
    500

/-- Literal text of the depth-zero prompt before the task excerpt. -/
def analyzePre : String :=
  "Analyze task: \""

/-- Literal text of the depth-zero prompt after the task excerpt. -/
def analyzePost : String :=
  "\"\nProvide: [approach][potential_issues][confidence_0-1]\nFormat: Single paragraph, minimal words."

/-- `generateThinkingPrompt` from the source. -/
def generateThinkingPrompt (originalTask : String) (state : ThinkingState)
    (config : ThinkingConfig) : String :=
  if state.depth = 0 then
    analyzePre ++ jsSlice originalTask 200 ++ analyzePost
  else
    let previousInsights := compressInsights state.lastResult
    "Refine solution (depth " ++ toString state.depth ++ "/" ++
      toString config.maxDepth ++ "):\nTask: \"" ++
      jsSlice originalTask 100 ++ "...\"\nPrevious: \"" ++
      previousInsights ++ "\"\nCurrent confidence: " ++
      jsNumToString state.confidence ++
      "\nProvide: [refinement][what_to_improve][new_confidence]\nFormat: Concise, action-oriented."

/-- Keyword list of `isProductionReady`. -/
def prodIndicators : List String :=
  ["implement", "complete", "final", "solution", "ready", "tested",
    "handle", "error", "edge case", "deploy"]

/-- `isProductionReady` from the source. -/
def isProductionReady (result : String) (confidence : Option ℚ) : Bool :=
  let hasProdKeywords :=
    prodIndicators.any (fun kw => jsIncludes (jsToLower result) kw)
  jge confidence (mkRat 85 100) && hasProdKeywords && decide (50 < result.length)

/-- The fresh state built by `recursiveThink` (`start`). -/
def initialState : ThinkingState :=
  { depth := 0
    confidence := some 0
    iterations := []
    lastResult := ""
    isComplete := false }

/-- Pure content of `recursiveThink`: initial prompt, iteration count 0,
confidence 0. -/
def recursiveThink (task : String) (config : PartialThinkingConfig) :
    String × Nat × Option ℚ :=
  (generateThinkingPrompt task initialState (mergeConfig config), 0, some 0)

/-- Result record of `processIteration`. -/
structure IterationResult where
  nextPrompt : Option String
  state : ThinkingState

/-- `processIteration` from the source. -/
def processIteration (originalTask agentResponse : String)
    (previousState : ThinkingState) (config : PartialThinkingConfig) :
    IterationResult :=
  let finalConfig := mergeConfig config
  let confidence := parsedConfidence agentResponse
  let newState : ThinkingState :=
    { depth := previousState.depth + 1
      confidence := confidence
      iterations := previousState.iterations ++ [agentResponse]
      lastResult := agentResponse
      isComplete := false }
  if isProductionReady agentResponse confidence ||
      decide (newState.depth ≥ finalConfig.maxDepth) ||
      jge confidence finalConfig.minConfidence then
    { nextPrompt := none, state := { newState with isComplete := true } }
  else
    { nextPrompt := some (generateThinkingPrompt originalTask newState finalConfig)
      state := newState }

/-- Repeated iteration from the initial state, one call per response. -/
def runIterations (task : String) (config : PartialThinkingConfig)
    (responses : List String) : ThinkingState :=
  responses.foldl (fun st r => (processIteration task r st config).state)
    initialState

/-- Reference definition of the insight compressor following the words of
the specification: split the text into lines, discard blank or
whitespace-only lines, retain exactly the lines whose lowercased content
contains at least one keyword of the fixed set, join the retained lines
with newline separators, and truncate the result to at most 500
characters. -/
def compressSpec (text : String) : String :=
  let lines := jsSplitNewline text
  let nonBlank := lines.filter (fun l => !(jsIsBlank l))
  let kept := nonBlank.filter
    (fun line => compressKeywords.any (fun kw => jsIncludes (jsToLower line) kw))
  jsSlice (String.intercalate "\n" kept) 500

/-! ### Helper lemmas -/

lemma processIteration_complete_of_cond (task resp : String)
    (prev : ThinkingState) (cfg : PartialThinkingConfig)
    (h : (isProductionReady resp (parsedConfidence resp) ||
        decide (prev.depth + 1 ≥ (mergeConfig cfg).maxDepth) ||
        jge (parsedConfidence resp) (mergeConfig cfg).minConfidence) = true) :
    (processIteration task resp prev cfg).state.isComplete = true ∧
    (processIteration task resp prev cfg).nextPrompt = none := by
  simp [processIteration, h]

lemma processIteration_state_depth (task resp : String)
    (prev : ThinkingState) (cfg : PartialThinkingConfig) :
    (processIteration task resp prev cfg).state.depth = prev.depth + 1 := by
  simp only [processIteration]
  split <;> rfl

lemma processIteration_state_iterations (task resp : String)
    (prev : ThinkingState) (cfg : PartialThinkingConfig) :
    (processIteration task resp prev cfg).state.iterations =
      prev.iterations ++ [resp] := by
  simp only [processIteration]
  split <;> rfl

/-! ### Claims -/

/-- C1: for every previous state and configuration where the incremented
depth of the new state reaches `config.maxDepth` (in particular whenever the
previous depth is already at least `maxDepth`), `processIteration` returns a
state with `isComplete = true` and `nextPrompt = null`, regardless of the
confidence parsed from the response and of the response content. -/
theorem processIteration_complete_at_maxDepth (task resp : String)
    (prev : ThinkingState) (cfg : PartialThinkingConfig)
    (h : (mergeConfig cfg).maxDepth ≤ prev.depth + 1) :
    (processIteration task resp prev cfg).state.isComplete = true ∧
    (processIteration task resp prev cfg).nextPrompt = none := by
  refine processIteration_complete_of_cond task resp prev cfg ?hc
  have hb : decide (prev.depth + 1 ≥ (mergeConfig cfg).maxDepth) = true :=
    decide_eq_true h
  simp [hb]

/-- Witness for C1 at `maxDepth = 1` and the initial state. -/
theorem processIteration_complete_at_maxDepth_instance :
    (mergeConfig { maxDepth := some 1 }).maxDepth ≤ initialState.depth + 1 ∧
    ((processIteration "t" "r" initialState
        { maxDepth := some 1 }).state.isComplete = true ∧
      (processIteration "t" "r" initialState
        { maxDepth := some 1 }).nextPrompt = none) :=
  ⟨by decide,
    processIteration_complete_at_maxDepth "t" "r" initialState
      { maxDepth := some 1 } (by decide)⟩

/-- C2: whenever the confidence parsed from the agent response is at least
the effective `minConfidence` of the configuration, `processIteration`
returns a state with `isComplete = true` and `nextPrompt = null`,
independently of the depth and of the readiness heuristic. -/
theorem processIteration_complete_at_minConfidence (task resp : String)
    (prev : ThinkingState) (cfg : PartialThinkingConfig)
    (h : jge (parsedConfidence resp) (mergeConfig cfg).minConfidence = true) :
    (processIteration task resp prev cfg).state.isComplete = true ∧
    (processIteration task resp prev cfg).nextPrompt = none := by
  refine processIteration_complete_of_cond task resp prev cfg ?hc
  simp [h]

/-- Witness for C2 on a short low-depth response reporting confidence 0.9
against the default threshold 0.85. -/
theorem processIteration_complete_at_minConfidence_instance :
    jge (parsedConfidence "confidence: 0.9")
      (mergeConfig {}).minConfidence = true ∧
    ((processIteration "t" "confidence: 0.9" initialState
        {}).state.isComplete = true ∧
      (processIteration "t" "confidence: 0.9" initialState
        {}).nextPrompt = none) :=
  ⟨by decide,
    processIteration_complete_at_minConfidence "t" "confidence: 0.9"
      initialState {} (by decide)⟩

/-- C10: when the effective `minConfidence` is at most `0.5` and the agent
response contains no confidence token followed by a number, the parsed
confidence defaults to `0.5`, meets the threshold, and `processIteration`
marks the session complete on that very call, for any previous state. -/
theorem processIteration_default_confidence_completes (task resp : String)
    (prev : ThinkingState) (cfg : PartialThinkingConfig)
    (h1 : (mergeConfig cfg).minConfidence ≤ mkRat 1 2)
    (h2 : findConfidenceNum (resp.toList.map Char.toLower) = none) :
    (processIteration task resp prev cfg).state.isComplete = true ∧
    (processIteration task resp prev cfg).nextPrompt = none := by
  refine processIteration_complete_of_cond task resp prev cfg ?hc
  have hpc : parsedConfidence resp = some (mkRat 1 2) := by
    have h3 : findConfidenceNum (List.map Char.toLower resp.data) = none := h2
    simp [parsedConfidence, h3]
  have hj : jge (parsedConfidence resp) (mergeConfig cfg).minConfidence = true := by
    rw [hpc]
    simpa [jge] using h1
  simp [hj]

/-- Witness for C10: threshold 0.5, a first-call response with no
confidence token. -/
theorem processIteration_default_confidence_completes_instance :
    (mergeConfig { minConfidence := some (mkRat 1 2) }).minConfidence ≤
      mkRat 1 2 ∧
    findConfidenceNum ("hello world".toList.map Char.toLower) = none ∧
    ((processIteration "t" "hello world" initialState
        { minConfidence := some (mkRat 1 2) }).state.isComplete = true ∧
      (processIteration "t" "hello world" initialState
        { minConfidence := some (mkRat 1 2) }).nextPrompt = none) :=
  ⟨by decide, by decide,
    processIteration_default_confidence_completes "t" "hello world"
      initialState { minConfidence := some (mkRat 1 2) } (by decide) (by decide)⟩

lemma jge_eq_true_iff (c : Option ℚ) (t : ℚ) :
    jge c t = true ↔ ∃ q : ℚ, c = some q ∧ t ≤ q := by
  cases c <;> simp [jge]

/-- C3: `isProductionReady resultText confidence` is true exactly when the
confidence is an actual number at least `0.85` (a fixed constant,
independent of the configured `minConfidence`), the lowercased result text
contains one of the ten production-indicator substrings, and the result
text is strictly longer than 50 characters. -/
theorem isProductionReady_characterization (r : String) (c : Option ℚ) :
    isProductionReady r c = true ↔
      (∃ q : ℚ, c = some q ∧ mkRat 85 100 ≤ q) ∧
      (∃ kw ∈ (["implement", "complete", "final", "solution", "ready",
          "tested", "handle", "error", "edge case", "deploy"] : List String),
        jsIncludes (jsToLower r) kw = true) ∧
      50 < r.length := by
  rw [← jge_eq_true_iff c (mkRat 85 100)]
  simp [isProductionReady, prodIndicators, Bool.and_eq_true,
    List.any_eq_true, and_assoc]

lemma runIterations_loop (task : String) (cfg : PartialThinkingConfig)
    (rs : List String) (st : ThinkingState) :
    (rs.foldl (fun s r => (processIteration task r s cfg).state) st).depth =
      st.depth + rs.length ∧
    (rs.foldl (fun s r => (processIteration task r s cfg).state)
        st).iterations.length = st.iterations.length + rs.length := by
  induction rs generalizing st with
  | nil => simp
  | cons r rest ih =>
    simp only [List.foldl_cons, List.length_cons]
    obtain ⟨ih1, ih2⟩ := ih ((processIteration task r st cfg).state)
    refine ⟨?d, ?i⟩
    case d =>
      rw [ih1, processIteration_state_depth task r st cfg]
      omega
    case i =>
      rw [ih2, processIteration_state_iterations task r st cfg]
      simp
      omega

/-- C5: every call to `processIteration` increments the depth by exactly one
and appends exactly the agent response to the iteration history; the
invariant `iterations.length = depth` holds in the initial state and after
any number of successive calls: after processing a list of responses from
the initial state, depth and history length both equal the number of
calls. -/
theorem processIteration_depth_iterations_invariant :
    (∀ (task resp : String) (prev : ThinkingState)
        (cfg : PartialThinkingConfig),
      (processIteration task resp prev cfg).state.depth = prev.depth + 1 ∧
      (processIteration task resp prev cfg).state.iterations =
        prev.iterations ++ [resp]) ∧
    initialState.depth = 0 ∧ initialState.iterations = [] ∧
    (∀ (task : String) (cfg : PartialThinkingConfig)
        (responses : List String),
      (runIterations task cfg responses).depth = responses.length ∧
      (runIterations task cfg responses).iterations.length =
        responses.length) := by
  refine ⟨fun task resp prev cfg =>
    ⟨processIteration_state_depth task resp prev cfg,
      processIteration_state_iterations task resp prev cfg⟩, rfl, rfl,
    fun task cfg responses => ?run⟩
  have h := runIterations_loop task cfg responses initialState
  simpa [runIterations, initialState] using h

lemma string_length_append_pos (a b : String) (h : 0 < a.length) :
    0 < (a ++ b).length := by
  rw [String.length_append]
  omega

lemma generateThinkingPrompt_length_pos (t : String) (st : ThinkingState)
    (cfg : ThinkingConfig) : 0 < (generateThinkingPrompt t st cfg).length := by
  have h1 : 0 < analyzePre.length := by decide
  have h2 : 0 < ("Refine solution (depth " : String).length := by decide
  simp only [generateThinkingPrompt]
  split
  · simp only [String.length_append]
    omega
  · simp only [String.length_append]
    omega

/-- C6: `processIteration` returns `nextPrompt = null` exactly when the
returned state is complete, and whenever the state is not complete the
returned prompt is a non-empty string. -/
theorem processIteration_nextPrompt_none_iff_complete (task resp : String)
    (prev : ThinkingState) (cfg : PartialThinkingConfig) :
    ((processIteration task resp prev cfg).nextPrompt = none ↔
      (processIteration task resp prev cfg).state.isComplete = true) ∧
    ((processIteration task resp prev cfg).state.isComplete = false →
      ∃ p : String, (processIteration task resp prev cfg).nextPrompt = some p ∧
        0 < p.length) := by
  simp only [processIteration]
  split
  · exact ⟨by simp, fun h => by simp at h⟩
  · exact ⟨by simp, fun h =>
      ⟨_, rfl, generateThinkingPrompt_length_pos _ _ _⟩⟩

/-- Witness for C6: a low-confidence first response leaves the session
incomplete and yields a non-empty continuation prompt. -/
theorem processIteration_nextPrompt_none_iff_complete_instance :
    (processIteration "t" "plain answer" initialState {}).state.isComplete =
      false ∧
    ∃ p : String,
      (processIteration "t" "plain answer" initialState {}).nextPrompt =
        some p ∧ 0 < p.length :=
  ⟨by decide,
    (processIteration_nextPrompt_none_iff_complete "t" "plain answer"
      initialState {}).2 (by decide)⟩

lemma jsSlice_length_le (s : String) (n : Nat) : (jsSlice s n).length ≤ n :=
  List.length_take_le n s.toList

/-- C7: `compressInsights` coincides with the reference definition written
from the specification; its output never exceeds 500 characters; and it
returns the empty string whenever no line of the input contains a
keyword. -/
theorem compressInsights_matches_reference :
    (∀ text : String, compressInsights text = compressSpec text) ∧
    (∀ text : String, (compressInsights text).length ≤ 500) ∧
    (∀ text : String,
      (∀ line ∈ jsSplitNewline text, lineHasKeyword line = false) →
      compressInsights text = "") := by
  refine ⟨fun text => ?r, fun text => jsSlice_length_le _ 500,
    fun text h => ?e⟩
  case r =>
    rfl
  case e =>
    have hnil :
        ((jsSplitNewline text).filter (fun l => !(jsIsBlank l))).filter
          lineHasKeyword = [] := by
      rw [List.filter_eq_nil_iff]
      intro a ha
      have ha2 : a ∈ jsSplitNewline text := List.mem_of_mem_filter ha
      simp [h a ha2]
    simp only [compressInsights]
    rw [hnil]
    rfl

/-- Witness for C7: a keyword-free input compresses to the empty string. -/
theorem compressInsights_matches_reference_instance :
    (∀ line ∈ jsSplitNewline "just some text\nwith two lines",
      lineHasKeyword line = false) ∧
    compressInsights "just some text\nwith two lines" = "" :=
  ⟨by decide,
    compressInsights_matches_reference.2.2 "just some text\nwith two lines"
      (by decide)⟩

lemma containsSub_append_right (a b p : List Char)
    (h : containsSub b p = true) : containsSub (a ++ b) p = true := by
  induction a with
  | nil => simpa using h
  | cons c cs ih =>
      simp only [List.cons_append, containsSub, List.append_eq]
      rw [ih]
      simp

lemma jsIncludes_append_right (a b pat : String)
    (h : jsIncludes b pat = true) : jsIncludes (a ++ b) pat = true := by
  unfold jsIncludes at h ⊢
  rw [show (a ++ b).toList = a.toList ++ b.toList from rfl]
  exact containsSub_append_right _ _ _ h

/-- C8: at depth 0, the generated prompt is the analysis template around the
first at most 200 characters of the task, so its length is bounded by the
template length plus 200; it contains the literal markers `[approach]`,
`[potential_issues]` and `[confidence_0-1]`; and for the task
`Build a REST API` it contains that task verbatim. -/
theorem generateThinkingPrompt_depth_zero (task : String)
    (st : ThinkingState) (cfg : ThinkingConfig) (h : st.depth = 0) :
    generateThinkingPrompt task st cfg =
      analyzePre ++ jsSlice task 200 ++ analyzePost ∧
    (generateThinkingPrompt task st cfg).length ≤
      analyzePre.length + 200 + analyzePost.length ∧
    jsIncludes (generateThinkingPrompt task st cfg) "[approach]" = true ∧
    jsIncludes (generateThinkingPrompt task st cfg) "[potential_issues]" =
      true ∧
    jsIncludes (generateThinkingPrompt task st cfg) "[confidence_0-1]" =
      true ∧
    jsIncludes (generateThinkingPrompt "Build a REST API" st cfg)
      "Build a REST API" = true := by
  have he : ∀ t : String, generateThinkingPrompt t st cfg =
      analyzePre ++ jsSlice t 200 ++ analyzePost := by
    intro t
    simp [generateThinkingPrompt, h]
  have hmark : ∀ pat : String, jsIncludes analyzePost pat = true →
      jsIncludes (generateThinkingPrompt task st cfg) pat = true := by
    intro pat hp
    rw [he task]
    exact jsIncludes_append_right _ _ _ hp
  refine ⟨he task, ?len, hmark _ (by decide), hmark _ (by decide),
    hmark _ (by decide), ?task⟩
  case len =>
    rw [he task]
    simp only [String.length_append]
    have hs := jsSlice_length_le task 200
    omega
  case task =>
    rw [he "Build a REST API"]
    decide

/-- Witness for C8 at the initial state and the default configuration. -/
theorem generateThinkingPrompt_depth_zero_instance :
    initialState.depth = 0 ∧
    jsIncludes
      (generateThinkingPrompt "Build a REST API" initialState
        (mergeConfig {})) "Build a REST API" = true :=
  ⟨rfl,
    (generateThinkingPrompt_depth_zero "Build a REST API" initialState
      (mergeConfig {}) rfl).2.2.2.2.2⟩

lemma generateThinkingPrompt_congr (t : String) (st : ThinkingState)
    (c1 c2 : ThinkingConfig) (h : c1.maxDepth = c2.maxDepth) :
    generateThinkingPrompt t st c1 = generateThinkingPrompt t st c2 := by
  unfold generateThinkingPrompt
  rw [h]

/-- C9: neither `processIteration` nor the prompt generator depends on
`maxIterations` or `temperature`: two partial configurations that agree on
`maxDepth` and `minConfidence` (hence differ at most in `maxIterations` and
`temperature`) produce identical results on all inputs. -/
theorem engine_ignores_maxIterations_temperature
    (c1 c2 : PartialThinkingConfig) (h1 : c1.maxDepth = c2.maxDepth)
    (h2 : c1.minConfidence = c2.minConfidence) :
    (∀ (task resp : String) (prev : ThinkingState),
      processIteration task resp prev c1 =
        processIteration task resp prev c2) ∧
    (∀ (task : String) (st : ThinkingState),
      generateThinkingPrompt task st (mergeConfig c1) =
        generateThinkingPrompt task st (mergeConfig c2)) := by
  have hmd : (mergeConfig c1).maxDepth = (mergeConfig c2).maxDepth := by
    simp [mergeConfig, h1]
  have hmc : (mergeConfig c1).minConfidence =
      (mergeConfig c2).minConfidence := by
    simp [mergeConfig, h2]
  refine ⟨fun task resp prev => ?proc,
    fun task st => generateThinkingPrompt_congr task st _ _ hmd⟩
  simp only [processIteration]
  rw [hmd, hmc,
    generateThinkingPrompt_congr task _ (mergeConfig c1) (mergeConfig c2) hmd]

/-- Witness for C9: the default configuration against one that overrides
only `maxIterations` and `temperature`. -/
theorem engine_ignores_maxIterations_temperature_instance :
    ({} : PartialThinkingConfig).maxDepth =
      ({ maxIterations := some 20, temperature := some (mkRat 1 1) } :
        PartialThinkingConfig).maxDepth ∧
    ({} : PartialThinkingConfig).minConfidence =
      ({ maxIterations := some 20, temperature := some (mkRat 1 1) } :
        PartialThinkingConfig).minConfidence ∧
    processIteration "t" "r" initialState {} =
      processIteration "t" "r" initialState
        { maxIterations := some 20, temperature := some (mkRat 1 1) } :=
  ⟨rfl, rfl,
    (engine_ignores_maxIterations_temperature {}
      { maxIterations := some 20, temperature := some (mkRat 1 1) }
      rfl rfl).1 "t" "r" initialState⟩

lemma findConfidenceNum_eq_none (l : List Char)
    (h : containsSub l confidenceTok = false) :
    findConfidenceNum l = none := by
  induction l with
  | nil => rfl
  | cons c cs ih =>
      simp only [containsSub, Bool.or_eq_false_iff] at h
      obtain ⟨h1, h2⟩ := h
      simp [findConfidenceNum, h1, ih h2]

/-- C4 counterexample: on the response `confidence: .` the regex matches
with the digitless capture `.`, and `parseFloat` returns NaN (`none` in the
model), so the parse does not yield a numeric value — refuting the claim
that every response, including malformed confidence text, parses to a
well-defined numeric value. -/
theorem parsedConfidence_not_always_numeric :
    ¬ ∃ q : ℚ, parsedConfidence "confidence: ." = some q := by
  intro hex
  obtain ⟨q, hq⟩ := hex
  have h : parsedConfidence "confidence: ." = none := by decide
  rw [h] at hq
  exact Option.noConfusion hq

/-- C4 (amended): confidence parsing never throws; a response that does not
contain the token `confidence` (case-insensitively) parses to the default
`0.5`; a response whose first match is `confidence: 0.92` (in any letter
case, with colon and/or whitespace separators) parses to `0.92`; but a
match whose captured `[0-9.]+` run contains no digit, as in
`confidence: .`, parses to NaN rather than a number. -/
theorem parsedConfidence_behavior :
    (∀ s : String,
      containsSub (s.toList.map Char.toLower) confidenceTok = false →
      parsedConfidence s = some (mkRat 1 2)) ∧
    parsedConfidence "confidence: 0.92" = some (mkRat 92 100) ∧
    parsedConfidence "CONFIDENCE  0.92" = some (mkRat 92 100) ∧
    parsedConfidence "Confidence:\t0.92" = some (mkRat 92 100) ∧
    parsedConfidence "confidence: ." = none := by
  refine ⟨fun s h => ?d, by decide, by decide, by decide, by decide⟩
  have hn : findConfidenceNum (List.map Char.toLower s.data) = none :=
    findConfidenceNum_eq_none (s.toList.map Char.toLower) h
  simp [parsedConfidence, hn]

/-- Witness for C4 (amended): a token-free response parses to the 0.5
default. -/
theorem parsedConfidence_behavior_instance :
    containsSub ("no numbers here".toList.map Char.toLower) confidenceTok =
      false ∧
    parsedConfidence "no numbers here" = some (mkRat 1 2) :=
  ⟨by decide, parsedConfidence_behavior.1 "no numbers here" (by decide)⟩
